import Mathlib

/-!
Verification of the cuprj-cli bus generator (src/cuprj-cli.py): a shallow
embedding of the resolver (`BusGenerator._process_slaves`), the structural
emitter (`BusGenerator.generate_verilog` and `generate_wrapper`) and the
header emitter (`generate_c_header`), together with theorems settling the
specification's claims about them.

Machine integers of the source are Python arbitrary-precision integers, so
they are embedded as `Int`/`Nat` with no wrap-around.  Values that the
source handles dynamically (YAML/JSON scalars flowing into `io_pins`,
`cell_count` entries and `output_control`) are embedded as `PyVal`, a small
sum of the scalar shapes that can reach those places.
-/

namespace Cuprj

/-- A dynamic scalar as it reaches the generator from parsed YAML/JSON:
an integer, a string, or a boolean. -/
inductive PyVal where
  | int (n : Int)
  | str (s : String)
  | bool (b : Bool)
deriving DecidableEq, Repr

/-- Python whitespace recognised by `str.strip()` / `int()` (ASCII part). -/
def pySpace (c : Char) : Bool :=
  c = ' ' || c = '\t' || c = '\n' || c = '\x0d'

/-- Uppercase one character (ASCII; the source only meets ASCII here). -/
def pyCharUpper (c : Char) : Char :=
  if 'a' ≤ c ∧ c ≤ 'z' then Char.ofNat (c.toNat - 32) else c

/-- Lowercase one character (ASCII). -/
def pyCharLower (c : Char) : Char :=
  if 'A' ≤ c ∧ c ≤ 'Z' then Char.ofNat (c.toNat + 32) else c

/-- Python `str.upper()` (ASCII part). -/
def pyUpper (s : String) : String := ⟨s.data.map pyCharUpper⟩

/-- Python `str.lower()` (ASCII part). -/
def pyLower (s : String) : String := ⟨s.data.map pyCharLower⟩

/-- Python `str.strip()` on a character list. -/
def pyStrip (l : List Char) : List Char :=
  ((l.dropWhile pySpace).reverse.dropWhile pySpace).reverse

/-- Decimal value of a digit list (most significant first). -/
def natOfDigits (l : List Char) : Nat :=
  l.foldl (fun a c => a * 10 + (c.toNat - 48)) 0

/-- Python `int(s)` for a string: optional surrounding whitespace, optional
sign, then decimal digits.  (Numeric-literal underscores and non-ASCII
digits, which CPython also accepts, are not modelled.) -/
def pyIntOfStr (s : String) : Option Int :=
  match pyStrip s.data with
  | [] => none
  | c :: rest =>
    let signed : Int × List Char :=
      if c = '-' then (-1, rest) else if c = '+' then (1, rest) else (1, c :: rest)
    if signed.2 ≠ [] ∧ signed.2.all Char.isDigit then
      some (signed.1 * (natOfDigits signed.2 : Int))
    else none

/-- Python `int(v)` on a dynamic scalar: an int is returned unchanged, a
bool is its 0/1 value, a string is parsed; `none` models the raised
`ValueError`/`TypeError`. -/
def pyInt : PyVal → Option Int
  | .int n => some n
  | .bool b => some (if b then 1 else 0)
  | .str s => pyIntOfStr s

/-- Python `str(v)` on a dynamic scalar. -/
def pyStr : PyVal → String
  | .int n => toString n
  | .str s => s
  | .bool b => if b then "True" else "False"

/-- Python `s.isdigit()` (ASCII part: non-empty and all decimal digits). -/
def pyIsDigit (s : String) : Bool :=
  s.data ≠ [] && s.data.all Char.isDigit

/-- Python `v is True`: identity with the boolean singleton `True`.  Truthy
non-bool values such as the integer 1 or a non-empty string are not `True`. -/
def pyIsTrueIdentity (v : PyVal) : Bool := v = PyVal.bool true

/-- `ExternalInterface` of the source: one named external pin group of a
catalog entry.  `output_control` arrives unchecked from JSON, hence `PyVal`. -/
structure ExternalInterface where
  name : String
  port : String
  direction : String
  width : Int
  output_control : PyVal := .bool false
deriving DecidableEq, Repr

/-- `IPInfo` of the source: name, supported bus kinds and the
`cell_count` sequence of per-bus cost dictionaries. -/
structure IPInfo where
  name : String
  bus : List String := []
  cell_count : List (List (String × PyVal)) := []
deriving DecidableEq, Repr

/-- `IPLibraryEntry` of the source.  Of `flags` only presence (`is None`)
is ever inspected, so it is embedded as an `Option Unit`. -/
structure IPLibraryEntry where
  info : IPInfo
  external_interface : List ExternalInterface := []
  flags : Option Unit := none
deriving DecidableEq, Repr

/-- `IPLibrary` of the source. -/
structure IPLibrary where
  slaves : List IPLibraryEntry := []
deriving DecidableEq, Repr

/-- The `ip_dict` property: a dict comprehension keyed by entry name, so on
duplicate names the last entry wins; lookup of one type name. -/
def ip_dict_find (lib : IPLibrary) (t : String) : Option IPLibraryEntry :=
  lib.slaves.reverse.find? (fun e => e.info.name = t)

/-- `BusSlave` of the source: one configured slave.  `io_pins` values are
YAML scalars (`Union[int, str]` plus whatever YAML delivers), hence `PyVal`. -/
structure BusSlave where
  name : String
  type : String
  base_address : Option String := none
  io_pins : List (String × PyVal) := []
  irq : Option Int := none
deriving DecidableEq, Repr

/-- `ProcessedSlave` of the source: the resolved record the emitters consume. -/
structure ProcessedSlave where
  name : String
  type : String
  base_address : String
  io_pins : List (String × Int)
  irq : Option Int
  cell_count : Int
  external_interface : List ExternalInterface
deriving DecidableEq, Repr

/-- The fatal error conditions of the generator, one constructor per
`logging.error`/`sys.exit(1)` site reachable from resolution or emission. -/
inductive GenError where
  | unknownSlaveType (slave ty : String)
  | ioPinConversionError (slave : String)
  | interruptNotSupported (slave ty : String)
  | missingPinMapping (slave iface : String)
  | invalidPinValue (slave iface : String)
  | pinRangeOutOfBounds (slave iface : String) (lo hi : Int)
  | unknownDirection (slave iface dir : String)
  | interruptOutOfRange (slave : String) (irq : Int)
deriving DecidableEq, Repr

/-- `BusSlave.convert_io_pins`, the body of the dict comprehension
`{k: int(v) for k, v in self.io_pins.items()}`: left-to-right conversion,
`none` models the caught exception (lines 107-111). -/
def convertPins : List (String × PyVal) → Option (List (String × Int))
  | [] => some []
  | (k, v) :: rest =>
    match pyInt v with
    | none => none
    | some n =>
      match convertPins rest with
      | none => none
      | some l => some ((k, n) :: l)

/-- `BusSlave.convert_io_pins`. -/
def convert_io_pins (s : BusSlave) : Option (List (String × Int)) :=
  convertPins s.io_pins

/-- The bus-capability test of `_process_slaves` line 261:
`any(b.upper() in {"WB", "GENERIC"} for b in info.bus)`. -/
def busSupported (info : IPInfo) : Bool :=
  info.bus.any (fun b => pyUpper b = "WB" || pyUpper b = "GENERIC")

/-- The first `cell_count` dictionary containing key `"WB"`, and its
`"WB"` value (lines 266-272: the loop `break`s at the first hit). -/
def firstWBEntry (entries : List (List (String × PyVal))) : Option PyVal :=
  match entries.find? (fun e => (e.find? (fun kv => kv.1 = "WB")).isSome) with
  | none => none
  | some e => (e.find? (fun kv => kv.1 = "WB")).map (·.2)

/-- Lines 265-272: cost from the first `"WB"` entry;
`int(entry["WB"]) if str(entry["WB"]).isdigit() else 0`, exceptions to 0. -/
def wbCellCount (entries : List (List (String × PyVal))) : Int :=
  match firstWBEntry entries with
  | none => 0
  | some v => if pyIsDigit (pyStr v) then (pyInt v).getD 0 else 0

/-- Lines 261-272: cell count of one slave; unsupported bus forces 0 with
only a warning. -/
def computeCellCount (info : IPInfo) : Int :=
  if busSupported info then wbCellCount info.cell_count else 0

/-- `hex(n)[2:].upper()` for a non-negative address. -/
def hexUpper (n : Nat) : String := ⟨(Nat.toDigits 16 n).map pyCharUpper⟩

/-- Line 276: the computed base address
`f"32'h{hex(0x10000000 + idx * 0x10000)[2:].upper()}"`. -/
def resolveBase (idx : Nat) : String :=
  "32'h" ++ hexUpper (0x10000000 + idx * 0x10000)

/-- The body of `_process_slaves` for one slave at position `idx`
(lines 255-287): type lookup, cost, interrupt-capability check, base
address (`slave.base_address or computed`: Python `or` also replaces an
empty string), whole-table pin conversion. -/
def processOne (lib : IPLibrary) (idx : Nat) (slave : BusSlave) :
    Except GenError ProcessedSlave :=
  match ip_dict_find lib slave.type with
  | none => .error (.unknownSlaveType slave.name slave.type)
  | some lib_entry =>
    let cell_count := computeCellCount lib_entry.info
    if slave.irq.isSome && lib_entry.flags.isNone then
      .error (.interruptNotSupported slave.name slave.type)
    else
      let base_address :=
        match slave.base_address with
        | some s => if s = "" then resolveBase idx else s
        | none => resolveBase idx
      match convert_io_pins slave with
      | none => .error (.ioPinConversionError slave.name)
      | some pins =>
        .ok { name := slave.name, type := slave.type, base_address := base_address,
              io_pins := pins, irq := slave.irq, cell_count := cell_count,
              external_interface := lib_entry.external_interface }

/-- The `for idx, slave in enumerate(self.bus_slaves)` loop of
`_process_slaves`, fail-fast at the first fatal error. -/
def processFrom (lib : IPLibrary) : Nat → List BusSlave →
    Except GenError (List ProcessedSlave)
  | _, [] => .ok []
  | idx, s :: rest =>
    match processOne lib idx s with
    | .error e => .error e
    | .ok p =>
      match processFrom lib (idx + 1) rest with
      | .error e => .error e
      | .ok ps => .ok (p :: ps)

/-- `BusGenerator._process_slaves`: the whole resolution pass. -/
def process_slaves (slaves : List BusSlave) (lib : IPLibrary) :
    Except GenError (List ProcessedSlave) :=
  processFrom lib 0 slaves

/-- The `io_oen_assignments` dictionary of `generate_verilog`: pin index to
role code (0 = input passthrough, 1 = output driven, 2 = output-enable
controlled), insertion-ordered as a Python dict is. -/
abbrev PinMap := List (Int × Nat)

/-- Dict lookup `m[p]` / membership `p in m`. -/
def pmLookup (m : PinMap) (p : Int) : Option Nat :=
  (m.find? (fun q => q.1 = p)).map (·.2)

/-- `m.setdefault(p, v)`: keep an existing value, append the pair otherwise. -/
def pmSetdefault (m : PinMap) (p : Int) (v : Nat) : PinMap :=
  if (pmLookup m p).isSome then m else m ++ [(p, v)]

/-- `m[p] = v`: overwrite in place, append the pair when the key is new. -/
def pmSet (m : PinMap) (p : Int) (v : Nat) : PinMap :=
  if (pmLookup m p).isSome then
    m.map (fun q => if q.1 = p then (p, v) else q)
  else m ++ [(p, v)]

/-- `range(a, b + 1)` over Python ints: the integers from `a` to `b`
inclusive, empty when `b < a`. -/
def intRange (a b : Int) : List Int :=
  (List.range (b - a + 1).toNat).map (fun (i : Nat) => a + (i : Int))

/-- First-match association lookup, as a Python dict lookup on the (unique)
keys of `io_pins`. -/
def pinsLookup (pins : List (String × Int)) (k : String) : Option Int :=
  (pins.find? (fun q => q.1 = k)).map (·.2)

/-- Lines 336-367 of `generate_verilog`, for one external interface of one
slave: mapping lookup, pin-range check, then the direction dispatch that
emits the port-connection line and updates the pin-role dictionary.
The `int(slave.io_pins[iface_name])` re-parse of lines 343-347 is applied
to a value the resolver already converted to an integer; `int` of an `int`
cannot raise `ValueError`, so the `invalidPinValue` exit of the source has
no corresponding branch here.  The `is True` identity test on
`output_control` is `pyIsTrueIdentity`. -/
def processIface (sName : String) (pins : List (String × Int))
    (iface : ExternalInterface) (m : PinMap) : Except GenError (String × PinMap) :=
  let direction := pyLower iface.direction
  match pinsLookup pins iface.name with
  | none => .error (.missingPinMapping sName iface.name)
  | some pin_start =>
    let pin_end : Int := pin_start + iface.width - 1
    if ∀ p ∈ intRange pin_start pin_end, 0 ≤ p ∧ p ≤ 37 then
      if direction = "input" then
        .ok (s!".{iface.port}(io_in[{pin_end}:{pin_start}])",
             (intRange pin_start pin_end).foldl (fun mm p => pmSetdefault mm p 0) m)
      else if direction = "output" then
        if pyIsTrueIdentity iface.output_control then
          .ok (s!".{iface.port}(io_oen[{pin_end}:{pin_start}])",
               (intRange pin_start pin_end).foldl (fun mm p => pmSet mm p 2) m)
        else
          .ok (s!".{iface.port}(io_out[{pin_end}:{pin_start}])",
               (intRange pin_start pin_end).foldl (fun mm p => pmSetdefault mm p 1) m)
      else .error (.unknownDirection sName iface.name direction)
    else .error (.pinRangeOutOfBounds sName iface.name pin_start pin_end)

/-- The `for iface in slave.external_interface` loop: one connection line
per interface, threading the pin-role dictionary, fail-fast. -/
def processIfaces (sName : String) (pins : List (String × Int)) :
    List ExternalInterface → PinMap → Except GenError (List String × PinMap)
  | [], m => .ok ([], m)
  | iface :: rest, m =>
    match processIface sName pins iface m with
    | .error e => .error e
    | .ok (line, m1) =>
      match processIfaces sName pins rest m1 with
      | .error e => .error e
      | .ok (ls, m2) => .ok (line :: ls, m2)

/-- The nine fixed Wishbone port connections of every instance
(lines 326-334). -/
def instHeadLines (idx : Nat) : List String :=
  [".clk_i(wb_clk)", ".rst_i(wb_rst)", ".adr_i(wb_adr)",
   s!".dat_o(slave{idx}_dat)", ".dat_i(wb_dat_i)", ".we_i(wb_we)",
   s!".stb_i(wb_stb & cs{idx})", s!".cyc_i(wb_cyc & cs{idx})",
   s!".ack_o(slave{idx}_ack)"]

/-- Lines 323-377 for one slave: its comment line, interface processing,
the interrupt-range check (`if not (0 <= slave.irq <= 2)`) with the
`.IRQ(...)` connection, and the rendered instantiation block.  Under
fail-fast a fatal error discards all output, so gathering the block's
lines after the checks is equivalent to the source's append order. -/
def emitSlave (idx : Nat) (slave : ProcessedSlave) (m : PinMap) :
    Except GenError (List String × PinMap) :=
  match processIfaces slave.name slave.io_pins slave.external_interface m with
  | .error e => .error e
  | .ok (ifaceLines, m1) =>
    let renderBlock := fun (inst : List String) =>
      [s!"    // Instantiate slave {slave.name} of type {slave.type}_WB",
       s!"    {slave.type}_WB {slave.name} (",
       "        " ++ String.intercalate ",\n        " inst,
       "    );", ""]
    match slave.irq with
    | some i =>
      if 0 ≤ i ∧ i ≤ 2 then
        .ok (renderBlock (instHeadLines idx ++ ifaceLines ++ [s!".IRQ(user_irq[{i}])"]), m1)
      else .error (.interruptOutOfRange slave.name i)
    | none => .ok (renderBlock (instHeadLines idx ++ ifaceLines), m1)

/-- The `for idx, slave in enumerate(self.processed_slaves)` instantiation
loop (lines 323-377), threading the pin-role dictionary. -/
def emitAllSlaves : Nat → List ProcessedSlave → PinMap →
    Except GenError (List String × PinMap)
  | _, [], m => .ok ([], m)
  | idx, s :: rest, m =>
    match emitSlave idx s m with
    | .error e => .error e
    | .ok (ls, m1) =>
      match emitAllSlaves (idx + 1) rest m1 with
      | .error e => .error e
      | .ok (ls2, m2) => .ok (ls ++ ls2, m2)

/-- The fixed module header of `wb_bus` plus the two localparams
(lines 293-313). -/
def headerLines (total : Int) : List String :=
  ["// Generated Wishbone Bus Verilog Code with Bus Splitter, External Interface Mapping, IRQ Checkers, and Total WB Cell Count",
   "", "module wb_bus(",
   "    input         wb_clk,", "    input         wb_rst,",
   "    input  [31:0] wb_adr,", "    inout  [31:0] wb_dat_i,",
   "    input         wb_we,", "    input         wb_stb,",
   "    input         wb_cyc,", "    input  [31:0] wb_dat_o,",
   "    output        wb_ack,", "    input  [37:0] io_in,",
   "    output [37:0] io_out,", "    output [37:0] io_oen,",
   "    output [2:0]  user_irq", ");", "",
   "    localparam SLAVE_ADDR_SIZE = 32'h0001_0000;",
   s!"    localparam TOTAL_WB_CELL_COUNT = {total};", ""]

/-- Per-slave wire declarations (lines 314-319). -/
def slaveWireLines (idx : Nat) (s : ProcessedSlave) : List String :=
  [s!"    // Wires for slave {idx}: {s.name}",
   s!"    wire [31:0] slave{idx}_dat;",
   s!"    wire        slave{idx}_ack;",
   s!"    wire        cs{idx};", ""]

/-- The wire-declaration loop. -/
def wiresFrom : Nat → List ProcessedSlave → List String
  | _, [] => []
  | idx, s :: rest => slaveWireLines idx s ++ wiresFrom (idx + 1) rest

/-- One chip-select decode line (line 321). -/
def csLine (idx : Nat) (s : ProcessedSlave) : String :=
  s!"    assign cs{idx} = ((wb_adr >= {s.base_address}) && (wb_adr < ({s.base_address} + SLAVE_ADDR_SIZE))) ? 1'b1 : 1'b0;"

/-- The chip-select loop. -/
def csFrom : Nat → List ProcessedSlave → List String
  | _, [] => []
  | idx, s :: rest => csLine idx s :: csFrom (idx + 1) rest

/-- One priority-multiplexer case (lines 382-389). -/
def muxCase (idx : Nat) : List String :=
  [(if idx = 0 then s!"        if (cs{idx}) begin" else s!"        else if (cs{idx}) begin"),
   s!"            selected_dat = slave{idx}_dat;",
   s!"            selected_ack = slave{idx}_ack;",
   "        end"]

/-- The multiplexer header (lines 378-381). -/
def muxHead : List String :=
  ["    // Bus splitter: Multiplexer for slave outputs",
   "    reg [31:0] selected_dat;", "    reg        selected_ack;",
   "    always @(*) begin"]

/-- The multiplexer default branch and output assigns (lines 390-398). -/
def muxTail : List String :=
  ["        else begin", "            selected_dat = 32'h0;",
   "            selected_ack = 1'b0;", "        end", "    end", "",
   "    assign wb_dat_o = selected_dat;", "    assign wb_ack = selected_ack;", ""]

/-- Lines 400-407 for one physical pin: the safe default for an unclaimed
pin, the enable-polarity assign for role 0 or 1, nothing for role 2 (an
output-enable-controlled pin is driven by the slave's port instead). -/
def pinDefaultLines (m : PinMap) (p : Int) : List String :=
  match pmLookup m p with
  | none => [s!"    assign io_oen[{p}] = 1'b1;", s!"    assign io_out[{p}] = 1'b0;"]
  | some 0 => [s!"    assign io_oen[{p}] = 1'b0;"]
  | some 1 => [s!"    assign io_oen[{p}] = 1'b1;"]
  | some _ => []

/-- The `for pin in range(0, 38)` default-drive loop. -/
def defaultDriveLines (m : PinMap) : List String :=
  (List.range 38).flatMap (fun pin => pinDefaultLines m (Int.ofNat pin))

/-- `BusGenerator.generate_verilog` (lines 289-410) as the list of emitted
lines, assembled in the source's append order; fail-fast on the first
fatal error of the instantiation loop. -/
def generateVerilogLines (slaves : List ProcessedSlave) :
    Except GenError (List String) :=
  let total := slaves.foldl (fun a s => a + s.cell_count) 0
  match emitAllSlaves 0 slaves [] with
  | .error e => .error e
  | .ok (slaveBlocks, m) =>
    .ok (headerLines total ++ wiresFrom 0 slaves ++ csFrom 0 slaves ++ [""]
         ++ slaveBlocks ++ muxHead ++ (List.range slaves.length).flatMap muxCase
         ++ muxTail ++ defaultDriveLines m ++ ["", "endmodule"])

/-- `BusGenerator.generate_verilog`: the joined text. -/
def generate_verilog (slaves : List ProcessedSlave) : Except GenError String :=
  match generateVerilogLines slaves with
  | .error e => .error e
  | .ok ls => .ok (String.intercalate "\n" ls)

/-- The fixed wrapper lines of `generate_wrapper` (lines 425-478). -/
def wrapperLines : List String :=
  ["", "module user_project_wrapper #(", "    parameter BITS = 32", ") (",
   "`ifdef USE_POWER_PINS",
   "    inout vdda1,", "    inout vdda2,", "    inout vssa1,", "    inout vssa2,",
   "    inout vccd1,", "    inout vccd2,", "    inout vssd1,", "    inout vssd2,",
   "`endif",
   "    input wb_clk_i,", "    input wb_rst_i,", "    input wbs_stb_i,",
   "    input wbs_cyc_i,", "    input wbs_we_i,", "    input [3:0] wbs_sel_i,",
   "    input [31:0] wbs_dat_i,", "    input [31:0] wbs_adr_i,",
   "    output wbs_ack_o,", "    output [31:0] wbs_dat_o,",
   "    input  [127:0] la_data_in,", "    output [127:0] la_data_out,",
   "    input  [127:0] la_oenb,",
   "    input  [`MPRJ_IO_PADS-1:0] io_in,",
   "    output [`MPRJ_IO_PADS-1:0] io_out,",
   "    output [`MPRJ_IO_PADS-1:0] io_oeb,",
   "    inout [`MPRJ_IO_PADS-10:0] analog_io,",
   "    input   user_clock2,", "    output [2:0] user_irq", ");",
   "    wire [31:0] wb_dat_bus;",
   "    wire [`MPRJ_IO_PADS-1:0] internal_io_oen;",
   "    wb_bus u_wb_bus (",
   "        .wb_clk(wb_clk_i),", "        .wb_rst(wb_rst_i),",
   "        .wb_adr(wbs_adr_i),", "        .wb_dat_o(wbs_dat_o),",
   "        .wb_dat_i(wbs_dat_i),", "        .wb_we(wbs_we_i),",
   "        .wb_stb(wbs_stb_i),", "        .wb_cyc(wbs_cyc_i),",
   "        .wb_ack(wbs_ack_o),", "        .io_in(io_in),",
   "        .io_out(io_out),", "        .io_oen(internal_io_oen),",
   "        .user_irq(user_irq)", "    );",
   "    assign io_oeb = ~internal_io_oen;", "endmodule"]

/-- `generate_wrapper`: the bus module text followed by the fixed
top-level wrapper. -/
def generate_wrapper (wb_bus_code : String) : String :=
  String.intercalate "\n" (wb_bus_code :: wrapperLines)

/-- List-level `startswith`. -/
def strStarts (s pre : String) : Bool := List.isPrefixOf pre.data s.data

/-- List-level `endswith`. -/
def strEnds (s suf : String) : Bool := List.isSuffixOf suf.data s.data

/-- Hex digits of a character, for `int(s, 0)`. -/
def hexDigitVal (c : Char) : Option Nat :=
  if '0' ≤ c ∧ c ≤ '9' then some (c.toNat - 48)
  else if 'a' ≤ c ∧ c ≤ 'f' then some (c.toNat - 87)
  else if 'A' ≤ c ∧ c ≤ 'F' then some (c.toNat - 55)
  else none

/-- Value of a digit list in a base, `none` on a non-digit. -/
def digitsInBase (base : Nat) (l : List Char) : Option Nat :=
  l.foldl (fun acc c =>
    match acc, hexDigitVal c with
    | some a, some d => if d < base then some (a * base + d) else none
    | _, _ => none) (some 0)

/-- Python `int(s, 0)`: optional whitespace and sign, then a `0x`/`0o`/`0b`
prefixed literal or a decimal one; a decimal literal with a leading zero is
only legal when its value is zero.  (Numeric-literal underscores are not
modelled.) -/
def pyIntBase0 (s : String) : Option Int :=
  let t := pyStrip s.data
  match t with
  | [] => none
  | c :: rest =>
    let signed : Int × List Char :=
      if c = '-' then (-1, rest) else if c = '+' then (1, rest) else (1, c :: rest)
    let body := fun (l : List Char) =>
      match l with
      | '0' :: d :: ds =>
        if d = 'x' ∨ d = 'X' then if ds ≠ [] then digitsInBase 16 ds else none
        else if d = 'o' ∨ d = 'O' then if ds ≠ [] then digitsInBase 8 ds else none
        else if d = 'b' ∨ d = 'B' then if ds ≠ [] then digitsInBase 2 ds else none
        else if (d :: ds).all (fun ch => ch = '0') then some 0
        else none
      | ['0'] => some 0
      | l =>
        if l ≠ [] ∧ l.all Char.isDigit then some (natOfDigits l) else none
    (body signed.2).map (fun n => signed.1 * (n : Int))

/-- Python `hex(n)`: `0x` plus lowercase hex digits, sign in front. -/
def pyHex (n : Int) : String :=
  if n < 0 then "-0x" ++ ⟨Nat.toDigits 16 n.natAbs⟩
  else "0x" ++ ⟨Nat.toDigits 16 n.natAbs⟩

/-- `convert_base_address_to_c_format` (lines 481-499). -/
def convert_base_address_to_c_format (addr : String) : String :=
  if strStarts addr "32'h" || strStarts addr "32'H" then
    "0x" ++ ⟨addr.data.drop 4⟩
  else if strStarts addr "0x" then addr
  else
    match pyIntBase0 addr with
    | some n => pyHex n
    | none => addr

/-- `os.path.basename`: the component after the last `/`. -/
def pyBasename (p : String) : String :=
  ⟨(p.data.reverse.takeWhile (fun c => c ≠ '/')).reverse⟩

/-- `.replace(".", "_")` for the single-character pattern the source uses. -/
def replaceDotUnderscore (s : String) : String :=
  ⟨s.data.map (fun c => if c = '.' then '_' else c)⟩

/-- The output header file name of `generate_c_header` (lines 511-517):
the YAML file name with its `.yaml`/`.yml` extension replaced by `.h`. -/
def headerFileName (bus_yaml_file : String) : String :=
  if strEnds (pyLower bus_yaml_file) ".yaml" then
    ⟨bus_yaml_file.data.take (bus_yaml_file.data.length - 5)⟩ ++ ".h"
  else if strEnds (pyLower bus_yaml_file) ".yml" then
    ⟨bus_yaml_file.data.take (bus_yaml_file.data.length - 4)⟩ ++ ".h"
  else bus_yaml_file ++ ".h"

/-- `generate_c_header` (lines 501-529): inclusion guard from the header
file's base name, one `#define` per processed slave. -/
def generate_c_header (slaves : List ProcessedSlave) (bus_yaml_file : String) :
    String :=
  let headerGuard :=
    "__" ++ pyUpper (replaceDotUnderscore (pyBasename (headerFileName bus_yaml_file))) ++ "__"
  let defineLines := slaves.map (fun slave =>
    let macroName := pyUpper slave.name ++ "_BASE"
    s!"#define {macroName} {convert_base_address_to_c_format slave.base_address}")
  String.intercalate "\n"
    ([s!"#ifndef {headerGuard}", s!"#define {headerGuard}", ""]
     ++ defineLines ++ ["", s!"#endif // {headerGuard}"])

/-- The generation pipeline of `generate_command` (lines 531-580) after
loading and parsing: resolve, emit the structural artifact with its
wrapper, emit the header.  The pair is (wrapper_code, header_code). -/
def runPipeline (cfg : List BusSlave) (lib : IPLibrary) (bus_yaml_file : String) :
    Except GenError (String × String) :=
  match process_slaves cfg lib with
  | .error e => .error e
  | .ok ps =>
    match generate_verilog ps with
    | .error e => .error e
    | .ok v => .ok (generate_wrapper v, generate_c_header ps bus_yaml_file)

/-! Basic lemmas on the pin-role dictionary and integer ranges. -/

theorem mem_intRange {a b p : Int} : p ∈ intRange a b ↔ a ≤ p ∧ p ≤ b := by
  unfold intRange
  rw [List.mem_map]
  constructor
  · rintro ⟨i, hi, rfl⟩
    rw [List.mem_range] at hi
    omega
  · rintro ⟨h1, h2⟩
    exact ⟨(p - a).toNat, List.mem_range.mpr (by omega), by omega⟩

theorem pmLookup_cons (k : Int) (v : Nat) (t : PinMap) (p : Int) :
    pmLookup ((k, v) :: t) p = if k = p then some v else pmLookup t p := by
  by_cases h : k = p <;> simp [pmLookup, List.find?, h]

theorem pmLookup_append (m1 m2 : PinMap) (p : Int) :
    pmLookup (m1 ++ m2) p =
      match pmLookup m1 p with
      | some v => some v
      | none => pmLookup m2 p := by
  induction m1 with
  | nil => simp [pmLookup]
  | cons kv t ih =>
    obtain ⟨k, v⟩ := kv
    rw [List.cons_append, pmLookup_cons, pmLookup_cons]
    by_cases h : k = p <;> simp [h, ih]

theorem pmLookup_pmSetdefault (m : PinMap) (q : Int) (v : Nat) (p : Int) :
    pmLookup (pmSetdefault m q v) p =
      if p = q then some ((pmLookup m p).getD v) else pmLookup m p := by
  unfold pmSetdefault
  by_cases hq : (pmLookup m q).isSome
  · rw [if_pos hq]
    by_cases h : p = q
    · subst h
      obtain ⟨x, hx⟩ := Option.isSome_iff_exists.mp hq
      simp [hx]
    · simp [h]
  · rw [if_neg hq, pmLookup_append]
    rw [Option.not_isSome_iff_eq_none] at hq
    by_cases h : p = q
    · subst h
      rw [hq]
      rw [pmLookup_cons, if_pos rfl]
      simp [hq]
    · simp only [h, if_false]
      cases hm : pmLookup m p with
      | some x => simp
      | none =>
        rw [pmLookup_cons, if_neg (fun hqp => h hqp.symm)]
        rfl

theorem pmLookup_map_set_self (m : PinMap) (q : Int) (v : Nat) :
    pmLookup (m.map (fun r => if r.1 = q then (q, v) else r)) q =
      (pmLookup m q).map (fun _ => v) := by
  induction m with
  | nil => simp [pmLookup]
  | cons kv t ih =>
    obtain ⟨k, w⟩ := kv
    by_cases h : k = q
    · subst h
      simp [pmLookup_cons, ih]
    · simp only [List.map_cons, if_neg h]
      rw [pmLookup_cons, pmLookup_cons, if_neg h, if_neg h, ih]

theorem pmLookup_map_set_other (m : PinMap) (q : Int) (v : Nat) (p : Int)
    (hpq : p ≠ q) :
    pmLookup (m.map (fun r => if r.1 = q then (q, v) else r)) p = pmLookup m p := by
  induction m with
  | nil => simp [pmLookup]
  | cons kv t ih =>
    obtain ⟨k, w⟩ := kv
    by_cases h : k = q
    · subst h
      simp only [List.map_cons, if_pos rfl]
      rw [pmLookup_cons, pmLookup_cons, if_neg (fun hh : k = p => hpq hh.symm), ih]
      simp only [ite_eq_right_iff]
      exact fun hh => absurd hh.symm hpq
    · simp only [List.map_cons, if_neg h]
      rw [pmLookup_cons, pmLookup_cons, ih]

theorem pmLookup_pmSet_eq (m : PinMap) (q : Int) (v : Nat) (p : Int) :
    pmLookup (pmSet m q v) p = if p = q then some v else pmLookup m p := by
  unfold pmSet
  by_cases hq : (pmLookup m q).isSome
  · rw [if_pos hq]
    by_cases h : p = q
    · subst h
      rw [pmLookup_map_set_self]
      obtain ⟨x, hx⟩ := Option.isSome_iff_exists.mp hq
      simp [hx]
    · rw [pmLookup_map_set_other m q v p h, if_neg h]
  · rw [if_neg hq, pmLookup_append]
    rw [Option.not_isSome_iff_eq_none] at hq
    by_cases h : p = q
    · subst h
      rw [hq, pmLookup_cons, if_pos rfl]
      simp
    · simp only [h, if_false]
      cases hm : pmLookup m p with
      | some x => simp
      | none =>
        rw [pmLookup_cons, if_neg (fun hqp => h hqp.symm)]
        rfl

theorem processOne_ok_irq (lib : IPLibrary) (idx : Nat) (slave : BusSlave)
    (p : ProcessedSlave) (h : processOne lib idx slave = .ok p) :
    p.irq = slave.irq := by
  unfold processOne at h
  cases hf : ip_dict_find lib slave.type with
  | none =>
    simp only [hf] at h
    exact Except.noConfusion h
  | some entry =>
    simp only [hf] at h
    by_cases hc : (slave.irq.isSome && entry.flags.isNone) = true
    · rw [if_pos hc] at h
      exact Except.noConfusion h
    · rw [if_neg hc] at h
      cases hcv : convert_io_pins slave with
      | none =>
        simp only [hcv] at h
        exact Except.noConfusion h
      | some pins =>
        simp only [hcv] at h
        injection h with h
        subst h
        rfl

theorem processOne_ok_base (lib : IPLibrary) (idx : Nat) (slave : BusSlave)
    (p : ProcessedSlave) (h : processOne lib idx slave = .ok p)
    (hb : slave.base_address = none) : p.base_address = resolveBase idx := by
  unfold processOne at h
  cases hf : ip_dict_find lib slave.type with
  | none =>
    simp only [hf] at h
    exact Except.noConfusion h
  | some entry =>
    simp only [hf, hb] at h
    by_cases hc : (slave.irq.isSome && entry.flags.isNone) = true
    · rw [if_pos hc] at h
      exact Except.noConfusion h
    · rw [if_neg hc] at h
      cases hcv : convert_io_pins slave with
      | none =>
        simp only [hcv] at h
        exact Except.noConfusion h
      | some pins =>
        simp only [hcv] at h
        injection h with h
        subst h
        rfl

theorem processFrom_ok_get (lib : IPLibrary) :
    ∀ (slaves : List BusSlave) (idx j : Nat) (ps : List ProcessedSlave),
      processFrom lib idx slaves = .ok ps →
      ∀ slave, slaves.get? j = some slave →
        ∃ p, ps.get? j = some p ∧ processOne lib (idx + j) slave = .ok p := by
  intro slaves
  induction slaves with
  | nil =>
    intro idx j ps h slave hs
    simp [List.get?] at hs
  | cons s t ih =>
    intro idx j ps h slave hs
    rw [processFrom] at h
    cases h1 : processOne lib idx s with
    | error e => rw [h1] at h; exact absurd h (by simp)
    | ok p =>
      rw [h1] at h
      cases h2 : processFrom lib (idx + 1) t with
      | error e => rw [h2] at h; exact absurd h (by simp)
      | ok ps2 =>
        rw [h2] at h
        injection h with h
        subst h
        cases j with
        | zero =>
          injection hs with hs
          subst hs
          exact ⟨p, rfl, h1⟩
        | succ j =>
          have := ih (idx + 1) j ps2 h2 slave (by simpa using hs)
          obtain ⟨q, hq1, hq2⟩ := this
          refine ⟨q, by simpa using hq1, ?_⟩
          have harith : idx + 1 + j = idx + (j + 1) := by omega
          rw [harith] at hq2
          exact hq2

/-- C1: for every configuration resolved successfully, a slave declared
without a fixed base address receives the computed base
`0x10000000 + index * 0x10000` (index counting all slaves in declaration
order), rendered as the 32-bit hardware hex literal `32'h...`. -/
theorem C1_computed_base_address (cfg : List BusSlave) (lib : IPLibrary)
    (ps : List ProcessedSlave) (idx : Nat) (slave : BusSlave)
    (hok : process_slaves cfg lib = .ok ps)
    (hs : cfg.get? idx = some slave)
    (hfix : slave.base_address = none) :
    ∃ p, ps.get? idx = some p ∧
      p.base_address = "32'h" ++ hexUpper (0x10000000 + idx * 0x10000) := by
  obtain ⟨p, hp, hone⟩ := processFrom_ok_get lib cfg 0 idx ps hok slave hs
  refine ⟨p, hp, ?_⟩
  have hbase := processOne_ok_base lib (0 + idx) slave p hone hfix
  simpa [resolveBase] using hbase

def libC1 : IPLibrary :=
  { slaves := [{ info := { name := "uart", bus := ["WB"],
                           cell_count := [[("WB", PyVal.int 120)]] } }] }

def cfgC1 : List BusSlave :=
  [{ name := "s0", type := "uart" }, { name := "s1", type := "uart" }]

def psC1 : List ProcessedSlave :=
  [{ name := "s0", type := "uart", base_address := "32'h10000000",
     io_pins := [], irq := none, cell_count := 120, external_interface := [] },
   { name := "s1", type := "uart", base_address := "32'h10010000",
     io_pins := [], irq := none, cell_count := 120, external_interface := [] }]

/-- Witness for C1 at a concrete two-slave configuration: the second slave
(index 1) gets `32'h10010000`. -/
theorem C1_witness :
    ∃ p, psC1.get? 1 = some p ∧
      p.base_address = "32'h" ++ hexUpper (0x10000000 + 1 * 0x10000) :=
  C1_computed_base_address cfgC1 libC1 psC1 1 { name := "s1", type := "uart" }
    (by rfl) (by rfl) (by rfl)

/-- The fatal errors the structural emitter itself can raise (emission
phase), as opposed to those of the resolution pass. -/
def emitterPhaseError : GenError → Bool
  | .missingPinMapping .. => true
  | .pinRangeOutOfBounds .. => true
  | .unknownDirection .. => true
  | .interruptOutOfRange .. => true
  | _ => false

/-- The fatal errors of the resolution pass (`_process_slaves`). -/
def resolutionPhaseError : GenError → Bool
  | .unknownSlaveType .. => true
  | .ioPinConversionError .. => true
  | .interruptNotSupported .. => true
  | _ => false

/-- The per-interface parse error of lines 343-347. -/
def isInvalidPinValueError : GenError → Bool
  | .invalidPinValue .. => true
  | _ => false

theorem processIface_error_phase (sName : String) (pins : List (String × Int))
    (iface : ExternalInterface) (m : PinMap) (e : GenError)
    (h : processIface sName pins iface m = .error e) :
    emitterPhaseError e = true := by
  unfold processIface at h
  cases hl : pinsLookup pins iface.name with
  | none =>
    simp only [hl] at h
    injection h with h
    exact h ▸ rfl
  | some n =>
    simp only [hl] at h
    by_cases hr : ∀ p ∈ intRange n (n + iface.width - 1), 0 ≤ p ∧ p ≤ 37
    · rw [if_pos hr] at h
      by_cases hd1 : pyLower iface.direction = "input"
      · rw [if_pos hd1] at h
        exact Except.noConfusion h
      · rw [if_neg hd1] at h
        by_cases hd2 : pyLower iface.direction = "output"
        · rw [if_pos hd2] at h
          by_cases hc : pyIsTrueIdentity iface.output_control = true
          · rw [if_pos hc] at h
            exact Except.noConfusion h
          · rw [if_neg hc] at h
            exact Except.noConfusion h
        · rw [if_neg hd2] at h
          injection h with h
          exact h ▸ rfl
    · rw [if_neg hr] at h
      injection h with h
      exact h ▸ rfl

theorem processIfaces_error_phase (sName : String) (pins : List (String × Int)) :
    ∀ (ifaces : List ExternalInterface) (m : PinMap) (e : GenError),
      processIfaces sName pins ifaces m = .error e →
      emitterPhaseError e = true := by
  intro ifaces
  induction ifaces with
  | nil =>
    intro m e h
    exact Except.noConfusion h
  | cons iface rest ih =>
    intro m e h
    rw [processIfaces] at h
    cases h1 : processIface sName pins iface m with
    | error e1 =>
      simp only [h1] at h
      injection h with h
      exact h ▸ processIface_error_phase sName pins iface m e1 h1
    | ok r =>
      obtain ⟨line, m1⟩ := r
      simp only [h1] at h
      cases h2 : processIfaces sName pins rest m1 with
      | error e2 =>
        simp only [h2] at h
        injection h with h
        exact h ▸ ih m1 e2 h2
      | ok r2 =>
        obtain ⟨ls, m2⟩ := r2
        simp only [h2] at h
        exact Except.noConfusion h

theorem emitSlave_error_phase (idx : Nat) (slave : ProcessedSlave) (m : PinMap)
    (e : GenError) (h : emitSlave idx slave m = .error e) :
    emitterPhaseError e = true := by
  unfold emitSlave at h
  cases h1 : processIfaces slave.name slave.io_pins slave.external_interface m with
  | error e1 =>
    simp only [h1] at h
    injection h with h
    exact h ▸ processIfaces_error_phase slave.name slave.io_pins
      slave.external_interface m e1 h1
  | ok r =>
    obtain ⟨ifaceLines, m1⟩ := r
    simp only [h1] at h
    cases hi : slave.irq with
    | none =>
      simp only [hi] at h
      exact Except.noConfusion h
    | some i =>
      simp only [hi] at h
      by_cases hr : 0 ≤ i ∧ i ≤ 2
      · rw [if_pos hr] at h
        exact Except.noConfusion h
      · rw [if_neg hr] at h
        injection h with h
        exact h ▸ rfl

theorem emitAllSlaves_error_phase :
    ∀ (slaves : List ProcessedSlave) (idx : Nat) (m : PinMap) (e : GenError),
      emitAllSlaves idx slaves m = .error e → emitterPhaseError e = true := by
  intro slaves
  induction slaves with
  | nil =>
    intro idx m e h
    exact Except.noConfusion h
  | cons s rest ih =>
    intro idx m e h
    rw [emitAllSlaves] at h
    cases h1 : emitSlave idx s m with
    | error e1 =>
      simp only [h1] at h
      injection h with h
      exact h ▸ emitSlave_error_phase idx s m e1 h1
    | ok r =>
      obtain ⟨ls, m1⟩ := r
      simp only [h1] at h
      cases h2 : emitAllSlaves (idx + 1) rest m1 with
      | error e2 =>
        simp only [h2] at h
        injection h with h
        exact h ▸ ih (idx + 1) m1 e2 h2
      | ok r2 =>
        obtain ⟨ls2, m2⟩ := r2
        simp only [h2] at h
        exact Except.noConfusion h

theorem generate_verilog_error_phase (slaves : List ProcessedSlave) (e : GenError)
    (h : generate_verilog slaves = .error e) : emitterPhaseError e = true := by
  unfold generate_verilog generateVerilogLines at h
  cases h1 : emitAllSlaves 0 slaves [] with
  | error e1 =>
    simp only [h1] at h
    injection h with h
    exact h ▸ emitAllSlaves_error_phase slaves 0 [] e1 h1
  | ok r =>
    obtain ⟨ls, m⟩ := r
    simp only [h1] at h
    exact Except.noConfusion h

def libC2 : IPLibrary :=
  { slaves := [{ info := { name := "uart", bus := ["WB"],
                           cell_count := [[("WB", PyVal.int 120)]] },
                 external_interface :=
                   [{ name := "rx", port := "rx_i", direction := "input", width := 1 }] }] }

def cfgC2 : List BusSlave := [{ name := "uart0", type := "uart" }]

def psC2 : List ProcessedSlave :=
  [{ name := "uart0", type := "uart", base_address := "32'h10000000",
     io_pins := [], irq := none, cell_count := 120,
     external_interface :=
       [{ name := "rx", port := "rx_i", direction := "input", width := 1 }] }]

/-- C2 counterexample: a configuration that resolves successfully (no pin
mapping for the required interface `rx` is a condition `_process_slaves`
never checks) on which the structural emitter aborts, so the emitters are
not total on resolver-produced record lists. -/
theorem C2_counterexample :
    process_slaves cfgC2 libC2 = .ok psC2 ∧
    generate_verilog psC2 = .error (.missingPinMapping "uart0" "rx") :=
  ⟨rfl, rfl⟩

/-- C2 amended: the structural emitter can abort on a resolver-produced
record list, but only with an emission-phase validation error
(MissingPinMapping, PinRangeOutOfBounds, UnknownDirection,
InterruptOutOfRange), never with a resolution-phase error. -/
theorem C2_emitter_error_phase :
    ∀ (slaves : List ProcessedSlave) (e : GenError),
      generate_verilog slaves = .error e →
      resolutionPhaseError e = false ∧ emitterPhaseError e = true := by
  intro slaves e h
  have h2 := generate_verilog_error_phase slaves e h
  refine ⟨?_, h2⟩
  cases e <;> first | rfl | exact Bool.noConfusion h2

/-- Witness for C2's amended theorem at the concrete record list `psC2`. -/
theorem C2_witness :
    resolutionPhaseError (GenError.missingPinMapping "uart0" "rx") = false ∧
    emitterPhaseError (GenError.missingPinMapping "uart0" "rx") = true :=
  C2_emitter_error_phase psC2 (GenError.missingPinMapping "uart0" "rx") rfl

theorem convertPins_mem_none :
    ∀ (l : List (String × PyVal)) (k : String) (v : PyVal),
      (k, v) ∈ l → pyInt v = none → convertPins l = none := by
  intro l
  induction l with
  | nil =>
    intro k v hm
    exact absurd hm (List.not_mem_nil _)
  | cons kv t ih =>
    intro k v hm hv
    obtain ⟨k0, v0⟩ := kv
    rcases List.mem_cons.mp hm with heq | ht
    · injection heq with h1 h2
      subst h2
      rw [convertPins, hv]
    · rw [convertPins]
      cases h0 : pyInt v0 with
      | none => rfl
      | some n => rw [ih k v ht hv]

/-- C9: the per-interface integer re-parse in the structural emitter can
never fail: the emitter only raises emission-phase errors, among which
`invalidPinValue` never occurs; and a non-integer-convertible pin value
aborts already during resolution with the whole-table conversion error. -/
theorem C9_no_per_interface_parse_error :
    (∀ (slaves : List ProcessedSlave) (e : GenError),
        generate_verilog slaves = .error e → isInvalidPinValueError e = false)
    ∧ (∀ (lib : IPLibrary) (idx : Nat) (slave : BusSlave) (entry : IPLibraryEntry)
        (k : String) (v : PyVal),
        (k, v) ∈ slave.io_pins → pyInt v = none →
        ip_dict_find lib slave.type = some entry →
        (slave.irq.isSome && entry.flags.isNone) = false →
        processOne lib idx slave = .error (.ioPinConversionError slave.name)) := by
  constructor
  · intro slaves e h
    have h2 := generate_verilog_error_phase slaves e h
    cases e <;> first | rfl | exact Bool.noConfusion h2
  · intro lib idx slave entry k v hm hv hfind hirq
    unfold processOne
    simp only [hfind]
    have hirq2 : ¬((slave.irq.isSome && entry.flags.isNone) = true) := by
      rw [hirq]
      exact Bool.false_ne_true
    rw [if_neg hirq2]
    have hcv : convert_io_pins slave = none :=
      convertPins_mem_none slave.io_pins k v hm hv
    simp only [hcv]

def libC9 : IPLibrary :=
  { slaves := [{ info := { name := "gpio", bus := ["WB"] } }] }

def slaveC9 : BusSlave :=
  { name := "g0", type := "gpio", io_pins := [("pins", PyVal.str "abc")] }

def psC9 : List ProcessedSlave :=
  [{ name := "g0", type := "gpio", base_address := "32'h10000000",
     io_pins := [], irq := none, cell_count := 0,
     external_interface :=
       [{ name := "pins", port := "p_io", direction := "input", width := 8 }] }]

/-- Witness for C9 at concrete inputs: a missing-pin-mapping emitter error
is not the per-interface parse error, and the slave with a non-numeric pin
value dies in resolution with the whole-table conversion error. -/
theorem C9_witness :
    isInvalidPinValueError (GenError.missingPinMapping "g0" "pins") = false ∧
    processOne libC9 0 slaveC9 = .error (.ioPinConversionError "g0") :=
  ⟨C9_no_per_interface_parse_error.1 psC9 (GenError.missingPinMapping "g0" "pins") rfl,
   C9_no_per_interface_parse_error.2 libC9 0 slaveC9
     { info := { name := "gpio", bus := ["WB"] } } "pins" (PyVal.str "abc")
     (by decide) rfl rfl rfl⟩

def libC3 : IPLibrary :=
  { slaves := [{ info := { name := "uart", bus := ["WB"],
                           cell_count := [[("WB", PyVal.int 120)]] },
                 external_interface :=
                   [{ name := "rx", port := "rx_i", direction := "input", width := 1 }] }] }

def cfgC3 : List BusSlave :=
  [{ name := "uart0", type := "uart", io_pins := [("rx", PyVal.int (-5))] }]

/-- C3 counterexample: a pin mapped to the negative integer -5 (not a
non-negative integer) makes the run fail with `PinRangeOutOfBounds`, not
with `InvalidPinValue`: negative integers pass both integer conversions. -/
theorem C3_counterexample :
    runPipeline cfgC3 libC3 "prj.yaml" =
      .error (.pinRangeOutOfBounds "uart0" "rx" (-5) (-5)) ∧
    isInvalidPinValueError (GenError.pinRangeOutOfBounds "uart0" "rx" (-5) (-5)) = false :=
  ⟨rfl, rfl⟩

/-- C3 amended: a pin value that does not convert to an integer aborts
during resolution with the whole-table conversion error; a negative
integer converts successfully and, once mapped to an interface, fails the
pin-range check with `PinRangeOutOfBounds` during emission.  The
`InvalidPinValue` error never occurs. -/
theorem C3_invalid_pin_failures :
    (∀ (s : BusSlave) (k : String) (v : PyVal),
        (k, v) ∈ s.io_pins → pyInt v = none → convert_io_pins s = none)
    ∧ (∀ (sName : String) (pins : List (String × Int)) (iface : ExternalInterface)
        (m : PinMap) (n : Int),
        pinsLookup pins iface.name = some n → n < 0 → 1 ≤ iface.width →
        processIface sName pins iface m =
          .error (.pinRangeOutOfBounds sName iface.name n (n + iface.width - 1))) := by
  constructor
  · intro s k v hm hv
    exact convertPins_mem_none s.io_pins k v hm hv
  · intro sName pins iface m n hl hneg hw
    unfold processIface
    simp only [hl]
    have hmem : n ∈ intRange n (n + iface.width - 1) :=
      mem_intRange.mpr ⟨le_refl n, by omega⟩
    have hnall : ¬(∀ p ∈ intRange n (n + iface.width - 1), 0 ≤ p ∧ p ≤ 37) :=
      fun hall => absurd (hall n hmem).1 (by omega)
    rw [if_neg hnall]

def slaveC3w : BusSlave :=
  { name := "u", type := "t", io_pins := [("a", PyVal.str "xy")] }

def ifaceC3w : ExternalInterface :=
  { name := "rx", port := "rx_i", direction := "input", width := 1 }

/-- Witness for C3's amended theorem at concrete inputs. -/
theorem C3_witness :
    convert_io_pins slaveC3w = none ∧
    processIface "uart0" [("rx", -5)] ifaceC3w [] =
      .error (.pinRangeOutOfBounds "uart0" "rx" (-5) (-5)) :=
  ⟨C3_invalid_pin_failures.1 slaveC3w "a" (PyVal.str "xy") (by decide) rfl,
   C3_invalid_pin_failures.2 "uart0" [("rx", -5)] ifaceC3w [] (-5) rfl
     (by decide) (by decide)⟩

def libC4 : IPLibrary :=
  { slaves := [{ info := { name := "timer", bus := ["WB"] } }] }

def cfgC4 : List BusSlave :=
  [{ name := "t0", type := "timer", irq := some 3 }]

/-- C4 counterexample: a slave with `irq = 3` whose library entry lacks
`flags` fails with `InterruptNotSupported`, not `InterruptOutOfRange`, so
an out-of-range interrupt line does not always yield `InterruptOutOfRange`. -/
theorem C4_counterexample :
    runPipeline cfgC4 libC4 "prj.yaml" =
      .error (.interruptNotSupported "t0" "timer") ∧
    GenError.interruptNotSupported "t0" "timer" ≠
      GenError.interruptOutOfRange "t0" 3 :=
  ⟨rfl, by decide⟩

theorem processFrom_ok_irq_mem (lib : IPLibrary) :
    ∀ (slaves : List BusSlave) (idx : Nat) (ps : List ProcessedSlave),
      processFrom lib idx slaves = .ok ps →
      ∀ s ∈ slaves, ∃ p ∈ ps, p.irq = s.irq := by
  intro slaves
  induction slaves with
  | nil =>
    intro idx ps h s hs
    exact absurd hs (List.not_mem_nil _)
  | cons s0 t ih =>
    intro idx ps h s hs
    rw [processFrom] at h
    cases h1 : processOne lib idx s0 with
    | error e =>
      rw [h1] at h
      exact Except.noConfusion h
    | ok p =>
      rw [h1] at h
      cases h2 : processFrom lib (idx + 1) t with
      | error e =>
        rw [h2] at h
        exact Except.noConfusion h
      | ok ps2 =>
        rw [h2] at h
        injection h with h
        subst h
        rcases List.mem_cons.mp hs with rfl | ht
        · exact ⟨p, List.mem_cons_self p ps2, processOne_ok_irq lib idx s p h1⟩
        · obtain ⟨q, hq, hqi⟩ := ih (idx + 1) ps2 h2 s ht
          exact ⟨q, List.mem_cons_of_mem p hq, hqi⟩

theorem emitSlave_bad_irq (idx : Nat) (slave : ProcessedSlave) (m : PinMap)
    (i : Int) (hi : slave.irq = some i) (hbad : i < 0 ∨ 2 < i) :
    ∃ e, emitSlave idx slave m = .error e := by
  unfold emitSlave
  cases h1 : processIfaces slave.name slave.io_pins slave.external_interface m with
  | error e => exact ⟨e, by simp only [h1]⟩
  | ok r =>
    obtain ⟨ls, m1⟩ := r
    refine ⟨.interruptOutOfRange slave.name i, ?_⟩
    simp only [h1, hi]
    rw [if_neg (by omega : ¬(0 ≤ i ∧ i ≤ 2))]

theorem emitAllSlaves_bad_irq :
    ∀ (slaves : List ProcessedSlave) (idx : Nat) (m : PinMap),
      (∃ p ∈ slaves, ∃ i, p.irq = some i ∧ (i < 0 ∨ 2 < i)) →
      ∃ e, emitAllSlaves idx slaves m = .error e := by
  intro slaves
  induction slaves with
  | nil =>
    intro idx m hex
    obtain ⟨p, hp, _⟩ := hex
    exact absurd hp (List.not_mem_nil _)
  | cons s rest ih =>
    intro idx m hex
    obtain ⟨p, hp, i, hpi, hbad⟩ := hex
    rcases List.mem_cons.mp hp with rfl | hrest
    · obtain ⟨e, he⟩ := emitSlave_bad_irq idx p m i hpi hbad
      exact ⟨e, by rw [emitAllSlaves]; simp only [he]⟩
    · cases h1 : emitSlave idx s m with
      | error e => exact ⟨e, by rw [emitAllSlaves]; simp only [h1]⟩
      | ok r =>
        obtain ⟨ls, m1⟩ := r
        obtain ⟨e, he⟩ := ih (idx + 1) m1 ⟨p, hrest, i, hpi, hbad⟩
        exact ⟨e, by rw [emitAllSlaves]; simp only [h1, he]⟩

theorem generate_verilog_bad_irq (slaves : List ProcessedSlave)
    (hex : ∃ p ∈ slaves, ∃ i, p.irq = some i ∧ (i < 0 ∨ 2 < i)) :
    ∃ e, generate_verilog slaves = .error e := by
  obtain ⟨e, he⟩ := emitAllSlaves_bad_irq slaves 0 [] hex
  exact ⟨e, by unfold generate_verilog generateVerilogLines; simp only [he]⟩

/-- C4 amended: a configuration containing a slave with an interrupt line
outside [0, 2] always makes the run fail with some fatal error; the error
is `InterruptOutOfRange` whenever the slave's interface processing
succeeds (in particular the library entry must be interrupt-capable, or
`InterruptNotSupported` fires first during resolution). -/
theorem C4_amended_interrupt :
    (∀ (cfg : List BusSlave) (lib : IPLibrary) (f : String),
        (∃ s ∈ cfg, ∃ i, s.irq = some i ∧ (i < 0 ∨ 2 < i)) →
        ∃ e, runPipeline cfg lib f = .error e)
    ∧ (∀ (idx : Nat) (slave : ProcessedSlave) (m : PinMap) (i : Int)
        (r : List String) (m1 : PinMap),
        slave.irq = some i → (i < 0 ∨ 2 < i) →
        processIfaces slave.name slave.io_pins slave.external_interface m = .ok (r, m1) →
        emitSlave idx slave m = .error (.interruptOutOfRange slave.name i)) := by
  constructor
  · intro cfg lib f hex
    obtain ⟨s, hs, i, hi, hbad⟩ := hex
    cases hps : process_slaves cfg lib with
    | error e => exact ⟨e, by unfold runPipeline; simp only [hps]⟩
    | ok ps =>
      obtain ⟨p, hp, hirq⟩ := processFrom_ok_irq_mem lib cfg 0 ps hps s hs
      obtain ⟨e, he⟩ := generate_verilog_bad_irq ps ⟨p, hp, i, by rw [hirq, hi], hbad⟩
      exact ⟨e, by unfold runPipeline; simp only [hps, he]⟩
  · intro idx slave m i r m1 hi hbad hifc
    unfold emitSlave
    simp only [hifc, hi]
    rw [if_neg (by omega : ¬(0 ≤ i ∧ i ≤ 2))]

def libC4w : IPLibrary :=
  { slaves := [{ info := { name := "timer", bus := ["WB"] }, flags := some () }] }

def cfgC4w : List BusSlave :=
  [{ name := "t0", type := "timer", irq := some 3 }]

def psSlaveC4w : ProcessedSlave :=
  { name := "t0", type := "timer", base_address := "32'h10000000",
    io_pins := [], irq := some 3, cell_count := 0, external_interface := [] }

/-- Witness for C4's amended theorem at concrete inputs. -/
theorem C4_witness :
    (∃ e, runPipeline cfgC4w libC4w "a.yaml" = .error e) ∧
    emitSlave 0 psSlaveC4w [] = .error (.interruptOutOfRange "t0" 3) :=
  ⟨C4_amended_interrupt.1 cfgC4w libC4w "a.yaml"
     ⟨{ name := "t0", type := "timer", irq := some 3 }, by decide, 3, rfl,
      Or.inr (by decide)⟩,
   C4_amended_interrupt.2 0 psSlaveC4w [] 3 [] [] rfl (Or.inr (by decide)) rfl⟩

theorem pmLookup_foldl_pmSetdefault_of_some (v : Nat) :
    ∀ (l : List Int) (m : PinMap) (p : Int) (x : Nat), pmLookup m p = some x →
      pmLookup (l.foldl (fun mm q => pmSetdefault mm q v) m) p = some x := by
  intro l
  induction l with
  | nil => intro m p x hx; exact hx
  | cons a t ih =>
    intro m p x hx
    rw [List.foldl_cons]
    apply ih
    rw [pmLookup_pmSetdefault]
    by_cases h : p = a
    · rw [if_pos h, hx]
      rfl
    · rw [if_neg h, hx]

theorem pmLookup_foldl_pmSetdefault_mem (v : Nat) :
    ∀ (l : List Int) (m : PinMap) (p : Int), p ∈ l →
      pmLookup (l.foldl (fun mm q => pmSetdefault mm q v) m) p =
        some ((pmLookup m p).getD v) := by
  intro l
  induction l with
  | nil => intro m p hp; exact absurd hp (List.not_mem_nil _)
  | cons a t ih =>
    intro m p hp
    rw [List.foldl_cons]
    by_cases hpa : p = a
    · subst hpa
      apply pmLookup_foldl_pmSetdefault_of_some
      rw [pmLookup_pmSetdefault, if_pos rfl]
    · rcases List.mem_cons.mp hp with heq | ht
      · exact absurd heq hpa
      · rw [ih (pmSetdefault m a v) p ht, pmLookup_pmSetdefault, if_neg hpa]

theorem pmLookup_foldl_pmSetdefault_not_mem (v : Nat) :
    ∀ (l : List Int) (m : PinMap) (p : Int), p ∉ l →
      pmLookup (l.foldl (fun mm q => pmSetdefault mm q v) m) p = pmLookup m p := by
  intro l
  induction l with
  | nil => intro m p _; rfl
  | cons a t ih =>
    intro m p hp
    rw [List.foldl_cons, ih (pmSetdefault m a v) p (fun ht => hp (List.mem_cons_of_mem a ht)),
      pmLookup_pmSetdefault,
      if_neg (fun heq => hp (by rw [heq]; exact List.mem_cons_self a t))]

theorem pmLookup_foldl_pmSet_of_eq (v : Nat) :
    ∀ (l : List Int) (m : PinMap) (p : Int), pmLookup m p = some v →
      pmLookup (l.foldl (fun mm q => pmSet mm q v) m) p = some v := by
  intro l
  induction l with
  | nil => intro m p hx; exact hx
  | cons a t ih =>
    intro m p hx
    rw [List.foldl_cons]
    apply ih
    rw [pmLookup_pmSet_eq]
    by_cases h : p = a
    · rw [if_pos h]
    · rw [if_neg h, hx]

theorem pmLookup_foldl_pmSet_mem (v : Nat) :
    ∀ (l : List Int) (m : PinMap) (p : Int), p ∈ l →
      pmLookup (l.foldl (fun mm q => pmSet mm q v) m) p = some v := by
  intro l
  induction l with
  | nil => intro m p hp; exact absurd hp (List.not_mem_nil _)
  | cons a t ih =>
    intro m p hp
    rw [List.foldl_cons]
    by_cases hpa : p = a
    · subst hpa
      apply pmLookup_foldl_pmSet_of_eq
      rw [pmLookup_pmSet_eq, if_pos rfl]
    · rcases List.mem_cons.mp hp with heq | ht
      · exact absurd heq hpa
      · exact ih (pmSet m a v) p ht

theorem pmLookup_foldl_pmSet_not_mem (v : Nat) :
    ∀ (l : List Int) (m : PinMap) (p : Int), p ∉ l →
      pmLookup (l.foldl (fun mm q => pmSet mm q v) m) p = pmLookup m p := by
  intro l
  induction l with
  | nil => intro m p _; rfl
  | cons a t ih =>
    intro m p hp
    rw [List.foldl_cons, ih (pmSet m a v) p (fun ht => hp (List.mem_cons_of_mem a ht)),
      pmLookup_pmSet_eq,
      if_neg (fun heq => hp (by rw [heq]; exact List.mem_cons_self a t))]

theorem processIface_ok_cases (sName : String) (pins : List (String × Int))
    (iface : ExternalInterface) (m : PinMap) (line : String) (m' : PinMap)
    (h : processIface sName pins iface m = .ok (line, m')) :
    ∃ n, pinsLookup pins iface.name = some n ∧
      (∀ p ∈ intRange n (n + iface.width - 1), 0 ≤ p ∧ p ≤ 37) ∧
      ((pyLower iface.direction = "input" ∧
          m' = (intRange n (n + iface.width - 1)).foldl (fun mm p => pmSetdefault mm p 0) m)
       ∨ (pyLower iface.direction = "output" ∧
          pyIsTrueIdentity iface.output_control = true ∧
          m' = (intRange n (n + iface.width - 1)).foldl (fun mm p => pmSet mm p 2) m)
       ∨ (pyLower iface.direction = "output" ∧
          pyIsTrueIdentity iface.output_control = false ∧
          m' = (intRange n (n + iface.width - 1)).foldl (fun mm p => pmSetdefault mm p 1) m)) := by
  unfold processIface at h
  cases hl : pinsLookup pins iface.name with
  | none =>
    simp only [hl] at h
    exact Except.noConfusion h
  | some n =>
    simp only [hl] at h
    by_cases hr : ∀ p ∈ intRange n (n + iface.width - 1), 0 ≤ p ∧ p ≤ 37
    · rw [if_pos hr] at h
      by_cases hd1 : pyLower iface.direction = "input"
      · rw [if_pos hd1] at h
        injection h with h
        injection h with hline hm
        exact ⟨n, rfl, hr, Or.inl ⟨hd1, hm.symm⟩⟩
      · rw [if_neg hd1] at h
        by_cases hd2 : pyLower iface.direction = "output"
        · rw [if_pos hd2] at h
          by_cases hc : pyIsTrueIdentity iface.output_control = true
          · rw [if_pos hc] at h
            injection h with h
            injection h with hline hm
            exact ⟨n, rfl, hr, Or.inr (Or.inl ⟨hd2, hc, hm.symm⟩)⟩
          · rw [if_neg hc] at h
            injection h with h
            injection h with hline hm
            exact ⟨n, rfl, hr,
              Or.inr (Or.inr ⟨hd2, Bool.eq_false_iff.mpr hc, hm.symm⟩)⟩
        · rw [if_neg hd2] at h
          exact Except.noConfusion h
    · rw [if_neg hr] at h
      exact Except.noConfusion h

/-- C5: the pin-role write policy of the structural emitter.  Input
interfaces write `InputPassthrough` (role 0) first-writer-wins; plain
output interfaces write `OutputDriven` (role 1) first-writer-wins;
output-enable-controlled interfaces write `OutputEnableControlled`
(role 2) unconditionally, overwriting any prior role. -/
theorem C5_pin_role_write_policy :
    ∀ (sName : String) (pins : List (String × Int)) (iface : ExternalInterface)
      (m : PinMap) (n : Int) (line : String) (m' : PinMap) (p : Int),
      pinsLookup pins iface.name = some n →
      processIface sName pins iface m = .ok (line, m') →
      p ∈ intRange n (n + iface.width - 1) →
      ((pyLower iface.direction = "input" →
          pmLookup m' p = some ((pmLookup m p).getD 0))
       ∧ (pyLower iface.direction = "output" →
          pyIsTrueIdentity iface.output_control = false →
          pmLookup m' p = some ((pmLookup m p).getD 1))
       ∧ (pyLower iface.direction = "output" →
          pyIsTrueIdentity iface.output_control = true →
          pmLookup m' p = some 2)) := by
  intro sName pins iface m n line m' p hl h hp
  obtain ⟨n2, hl2, hr, hcases⟩ := processIface_ok_cases sName pins iface m line m' h
  rw [hl] at hl2
  injection hl2 with hn
  subst hn
  refine ⟨?_, ?_, ?_⟩
  · intro hd
    rcases hcases with ⟨_, hm⟩ | ⟨hd2, _, _⟩ | ⟨hd2, _, _⟩
    · rw [hm]
      exact pmLookup_foldl_pmSetdefault_mem 0 _ m p hp
    · rw [hd] at hd2
      exact absurd hd2 (by decide)
    · rw [hd] at hd2
      exact absurd hd2 (by decide)
  · intro hd hc
    rcases hcases with ⟨hd2, _⟩ | ⟨_, hc2, _⟩ | ⟨_, _, hm⟩
    · rw [hd] at hd2
      exact absurd hd2 (by decide)
    · rw [hc] at hc2
      exact Bool.noConfusion hc2
    · rw [hm]
      exact pmLookup_foldl_pmSetdefault_mem 1 _ m p hp
  · intro hd hc
    rcases hcases with ⟨hd2, _⟩ | ⟨_, _, hm⟩ | ⟨_, hc2, _⟩
    · rw [hd] at hd2
      exact absurd hd2 (by decide)
    · rw [hm]
      exact pmLookup_foldl_pmSet_mem 2 _ m p hp
    · rw [hc] at hc2
      exact Bool.noConfusion hc2

def ifaceC5 : ExternalInterface :=
  { name := "rx", port := "rx_i", direction := "input", width := 1 }

/-- Witness for C5 at a concrete input interface over a pin already
holding role 2: first-writer-wins keeps the existing role. -/
theorem C5_witness :
    pmLookup [((5 : Int), (2 : Nat))] 5 = some ((pmLookup [((5 : Int), (2 : Nat))] 5).getD 0) :=
  (C5_pin_role_write_policy "s" [("rx", 5)] ifaceC5 [(5, 2)] 5
    ".rx_i(io_in[5:5])" [(5, 2)] 5 rfl rfl (by decide)).1 rfl

/-- C10: an output interface is wired as output-enable-controlled only
when `output_control` is identically the boolean `True`.  Any other value,
truthy or not (the integer 1, a non-empty string), makes the pins a plain
data-output group: the port connects to the `io_out` slice and each pin
gets role `OutputDriven` first-writer-wins. -/
theorem C10_output_control_identity :
    ∀ (sName : String) (pins : List (String × Int)) (iface : ExternalInterface)
      (m : PinMap) (n : Int),
      pyLower iface.direction = "output" →
      iface.output_control ≠ PyVal.bool true →
      pinsLookup pins iface.name = some n →
      (∀ p ∈ intRange n (n + iface.width - 1), 0 ≤ p ∧ p ≤ 37) →
      ∃ m', processIface sName pins iface m =
          .ok (s!".{iface.port}(io_out[{n + iface.width - 1}:{n}])", m') ∧
        ∀ p ∈ intRange n (n + iface.width - 1),
          pmLookup m' p = some ((pmLookup m p).getD 1) := by
  intro sName pins iface m n hd hne hl hr
  have hc : pyIsTrueIdentity iface.output_control = false := by
    unfold pyIsTrueIdentity
    exact decide_eq_false hne
  have hd1 : ¬(pyLower iface.direction = "input") := by
    rw [hd]
    decide
  refine ⟨(intRange n (n + iface.width - 1)).foldl (fun mm p => pmSetdefault mm p 1) m, ?_, ?_⟩
  · unfold processIface
    simp only [hl]
    rw [if_pos hr, if_neg hd1, if_pos hd, if_neg (by rw [hc]; exact Bool.false_ne_true)]
  · intro p hp
    exact pmLookup_foldl_pmSetdefault_mem 1 _ m p hp

def ifaceC10 : ExternalInterface :=
  { name := "d", port := "d_o", direction := "output", width := 2,
    output_control := PyVal.int 1 }

/-- Witness for C10: `output_control` set to the truthy integer 1 still
yields a plain data-output connection. -/
theorem C10_witness :
    ∃ m', processIface "s10" [("d", 10)] ifaceC10 [] =
        .ok (".d_o(io_out[11:10])", m') ∧
      ∀ p ∈ intRange 10 11,
        pmLookup m' p = some ((pmLookup ([] : PinMap) p).getD 1) :=
  C10_output_control_identity "s10" [("d", 10)] ifaceC10 [] 10 rfl
    (by decide) rfl (by decide)

def infoC6 : IPInfo :=
  { name := "x", bus := ["WB"], cell_count := [[("WB", PyVal.int (-5))]] }

/-- C6 counterexample: a present, numeric `"WB"` cost entry of -5 is
forced to 0 because the source only accepts digit-only renderings
(`str(v).isdigit()`), so the cost does not always equal the entry. -/
theorem C6_counterexample :
    computeCellCount infoC6 = 0 ∧ ((-5 : Int) ≠ 0) :=
  ⟨rfl, by decide⟩

/-- C6 amended: an unsupported bus kind is non-fatal and forces cost 0;
for a supported bus kind the cost is the first `"WB"` entry when its
string rendering is digit-only (hence non-negative), and 0 when the entry
is absent or not digit-only (non-numeric values, but also negative
integers). -/
theorem C6_cell_count :
    (∀ (lib : IPLibrary) (idx : Nat) (slave : BusSlave) (entry : IPLibraryEntry)
        (pins : List (String × Int)),
        ip_dict_find lib slave.type = some entry →
        busSupported entry.info = false →
        (slave.irq.isSome && entry.flags.isNone) = false →
        convert_io_pins slave = some pins →
        ∃ p, processOne lib idx slave = .ok p ∧ p.cell_count = 0)
    ∧ (∀ (info : IPInfo) (v : PyVal),
        busSupported info = true → firstWBEntry info.cell_count = some v →
        pyIsDigit (pyStr v) = true → computeCellCount info = (pyInt v).getD 0)
    ∧ (∀ (info : IPInfo) (v : PyVal),
        busSupported info = true → firstWBEntry info.cell_count = some v →
        pyIsDigit (pyStr v) = false → computeCellCount info = 0)
    ∧ (∀ (info : IPInfo),
        busSupported info = true → firstWBEntry info.cell_count = none →
        computeCellCount info = 0) := by
  refine ⟨?_, ?_, ?_, ?_⟩
  · intro lib idx slave entry pins hfind hbus hirq hcv
    have hirq2 : ¬((slave.irq.isSome && entry.flags.isNone) = true) := by
      rw [hirq]
      exact Bool.false_ne_true
    have hcell : computeCellCount entry.info = 0 := by
      unfold computeCellCount
      simp [hbus]
    refine ⟨{ name := slave.name, type := slave.type,
              base_address := match slave.base_address with
                | some s => if s = "" then resolveBase idx else s
                | none => resolveBase idx,
              io_pins := pins, irq := slave.irq,
              cell_count := computeCellCount entry.info,
              external_interface := entry.external_interface }, ?_, hcell⟩
    unfold processOne
    simp only [hfind]
    rw [if_neg hirq2]
    simp only [hcv]
  · intro info v hbus hwb hdig
    unfold computeCellCount wbCellCount
    simp [hbus, hwb, hdig]
  · intro info v hbus hwb hdig
    unfold computeCellCount wbCellCount
    simp [hbus, hwb, hdig]
  · intro info hbus hwb
    unfold computeCellCount wbCellCount
    simp [hbus, hwb]

def libC6w : IPLibrary :=
  { slaves := [{ info := { name := "x", bus := ["AHB"] } }] }

def slaveC6w : BusSlave := { name := "s", type := "x" }

def infoC6w : IPInfo :=
  { name := "y", bus := ["WB"], cell_count := [[("WB", PyVal.str "42")]] }

/-- Witness for C6's amended theorem at concrete inputs: an AHB-only entry
binds with cost 0, and a digit-string `"WB"` entry yields its value. -/
theorem C6_witness :
    (∃ p, processOne libC6w 0 slaveC6w = .ok p ∧ p.cell_count = 0) ∧
    computeCellCount infoC6w = (pyInt (PyVal.str "42")).getD 0 :=
  ⟨C6_cell_count.1 libC6w 0 slaveC6w { info := { name := "x", bus := ["AHB"] } }
     [] rfl rfl rfl rfl,
   C6_cell_count.2.1 infoC6w (PyVal.str "42") rfl rfl rfl⟩

/-- C8: resolution and emission are deterministic: two runs of the full
pipeline on the same catalog and project inputs produce the same
structural artifact and the same header artifact.  The embedding is a
pure function of its inputs; in particular slave records and pin-role
entries are kept in insertion order, as Python dicts are. -/
theorem C8_deterministic :
    ∀ (cfg : List BusSlave) (lib : IPLibrary) (f : String)
      (out1 out2 : String × String),
      runPipeline cfg lib f = .ok out1 → runPipeline cfg lib f = .ok out2 →
      out1.1 = out2.1 ∧ out1.2 = out2.2 := by
  intro cfg lib f o1 o2 h1 h2
  rw [h1] at h2
  injection h2 with h2
  exact ⟨by rw [h2], by rw [h2]⟩

def libC8 : IPLibrary :=
  { slaves := [{ info := { name := "uart", bus := ["WB"],
                           cell_count := [[("WB", PyVal.int 120)]] },
                 external_interface :=
                   [{ name := "rx", port := "rx_i", direction := "input", width := 1 },
                    { name := "tx", port := "tx_o", direction := "output", width := 1 }] }] }

def cfgC8 : List BusSlave :=
  [{ name := "uart0", type := "uart",
     io_pins := [("rx", PyVal.int 5), ("tx", PyVal.int 6)] }]

def outC8 : String × String :=
  match runPipeline cfgC8 libC8 "prj.yaml" with
  | .ok o => o
  | .error _ => ("", "")

/-- Witness for C8: the pipeline succeeds twice on a concrete
configuration with equal artifacts. -/
theorem C8_witness : outC8.1 = outC8.1 ∧ outC8.2 = outC8.2 :=
  C8_deterministic cfgC8 libC8 "prj.yaml" outC8 outC8 rfl rfl

/-- Does one interface of a slave claim physical pin `pin`? (the claimed
range is `[n, n + width - 1]` for the mapped start pin `n`). -/
def ifaceClaims (pins : List (String × Int)) (iface : ExternalInterface)
    (pin : Int) : Bool :=
  match pinsLookup pins iface.name with
  | none => false
  | some n => decide (n ≤ pin) && decide (pin ≤ n + iface.width - 1)

/-- Does any interface of this slave claim `pin`? -/
def slaveClaims (s : ProcessedSlave) (pin : Int) : Bool :=
  s.external_interface.any (fun iface => ifaceClaims s.io_pins iface pin)

/-- Is `pin` claimed by any interface of any slave? -/
def claimedPin (slaves : List ProcessedSlave) (pin : Int) : Bool :=
  slaves.any (fun s => slaveClaims s pin)

theorem pmLookup_foldl_pmSetdefault_none_iff (v : Nat) (l : List Int)
    (m : PinMap) (p : Int) :
    pmLookup (l.foldl (fun mm q => pmSetdefault mm q v) m) p = none ↔
      (pmLookup m p = none ∧ p ∉ l) := by
  by_cases hp : p ∈ l
  · rw [pmLookup_foldl_pmSetdefault_mem v l m p hp]
    simp [hp]
  · rw [pmLookup_foldl_pmSetdefault_not_mem v l m p hp]
    simp [hp]

theorem pmLookup_foldl_pmSet_none_iff (v : Nat) (l : List Int)
    (m : PinMap) (p : Int) :
    pmLookup (l.foldl (fun mm q => pmSet mm q v) m) p = none ↔
      (pmLookup m p = none ∧ p ∉ l) := by
  by_cases hp : p ∈ l
  · rw [pmLookup_foldl_pmSet_mem v l m p hp]
    simp [hp]
  · rw [pmLookup_foldl_pmSet_not_mem v l m p hp]
    simp [hp]

theorem processIface_none_iff (sName : String) (pins : List (String × Int))
    (iface : ExternalInterface) (m : PinMap) (line : String) (m' : PinMap)
    (p : Int) (h : processIface sName pins iface m = .ok (line, m')) :
    pmLookup m' p = none ↔
      (pmLookup m p = none ∧ ifaceClaims pins iface p = false) := by
  obtain ⟨n, hl, hr, hcases⟩ := processIface_ok_cases sName pins iface m line m' h
  have hclaim : ifaceClaims pins iface p = false ↔
      p ∉ intRange n (n + iface.width - 1) := by
    unfold ifaceClaims
    rw [hl, mem_intRange]
    simp
  rcases hcases with ⟨_, hm⟩ | ⟨_, _, hm⟩ | ⟨_, _, hm⟩
  · rw [hm, pmLookup_foldl_pmSetdefault_none_iff]
    exact and_congr_right (fun _ => hclaim.symm)
  · rw [hm, pmLookup_foldl_pmSet_none_iff]
    exact and_congr_right (fun _ => hclaim.symm)
  · rw [hm, pmLookup_foldl_pmSetdefault_none_iff]
    exact and_congr_right (fun _ => hclaim.symm)

theorem processIfaces_none_iff (sName : String) (pins : List (String × Int)) :
    ∀ (ifaces : List ExternalInterface) (m : PinMap) (ls : List String)
      (m' : PinMap),
      processIfaces sName pins ifaces m = .ok (ls, m') → ∀ p : Int,
      (pmLookup m' p = none ↔
        (pmLookup m p = none ∧
         ifaces.any (fun iface => ifaceClaims pins iface p) = false)) := by
  intro ifaces
  induction ifaces with
  | nil =>
    intro m ls m' h p
    rw [processIfaces] at h
    injection h with h
    injection h with hls hm
    subst hm
    simp
  | cons iface rest ih =>
    intro m ls m' h p
    rw [processIfaces] at h
    cases h1 : processIface sName pins iface m with
    | error e =>
      simp only [h1] at h
      exact Except.noConfusion h
    | ok r =>
      obtain ⟨line, m1⟩ := r
      simp only [h1] at h
      cases h2 : processIfaces sName pins rest m1 with
      | error e =>
        simp only [h2] at h
        exact Except.noConfusion h
      | ok r2 =>
        obtain ⟨ls2, m2⟩ := r2
        simp only [h2] at h
        injection h with h
        injection h with hls hm
        subst hm
        have hstep := processIface_none_iff sName pins iface m line m1 p h1
        have hrest := ih m1 ls2 m2 h2 p
        rw [hrest, hstep]
        simp only [List.any_cons, Bool.or_eq_false_iff]
        tauto

theorem emitSlave_ok_ifaces (idx : Nat) (slave : ProcessedSlave) (m : PinMap)
    (ls : List String) (m1 : PinMap) (h : emitSlave idx slave m = .ok (ls, m1)) :
    ∃ r, processIfaces slave.name slave.io_pins slave.external_interface m =
      .ok (r, m1) := by
  unfold emitSlave at h
  cases h1 : processIfaces slave.name slave.io_pins slave.external_interface m with
  | error e =>
    simp only [h1] at h
    exact Except.noConfusion h
  | ok r0 =>
    obtain ⟨ifl, m1'⟩ := r0
    simp only [h1] at h
    cases hi : slave.irq with
    | none =>
      simp only [hi] at h
      injection h with h
      injection h with hls hm
      subst hm
      exact ⟨ifl, rfl⟩
    | some i =>
      simp only [hi] at h
      by_cases hr : 0 ≤ i ∧ i ≤ 2
      · rw [if_pos hr] at h
        injection h with h
        injection h with hls hm
        subst hm
        exact ⟨ifl, rfl⟩
      · rw [if_neg hr] at h
        exact Except.noConfusion h

theorem emitAllSlaves_none_iff :
    ∀ (slaves : List ProcessedSlave) (idx : Nat) (m : PinMap)
      (ls : List String) (m' : PinMap),
      emitAllSlaves idx slaves m = .ok (ls, m') → ∀ p : Int,
      (pmLookup m' p = none ↔
        (pmLookup m p = none ∧ claimedPin slaves p = false)) := by
  intro slaves
  induction slaves with
  | nil =>
    intro idx m ls m' h p
    rw [emitAllSlaves] at h
    injection h with h
    injection h with hls hm
    subst hm
    simp [claimedPin]
  | cons s rest ih =>
    intro idx m ls m' h p
    rw [emitAllSlaves] at h
    cases h1 : emitSlave idx s m with
    | error e =>
      simp only [h1] at h
      exact Except.noConfusion h
    | ok r =>
      obtain ⟨ls1, m1⟩ := r
      simp only [h1] at h
      cases h2 : emitAllSlaves (idx + 1) rest m1 with
      | error e =>
        simp only [h2] at h
        exact Except.noConfusion h
      | ok r2 =>
        obtain ⟨ls2, m2⟩ := r2
        simp only [h2] at h
        injection h with h
        injection h with hls hm
        subst hm
        obtain ⟨r0, hifc⟩ := emitSlave_ok_ifaces idx s m ls1 m1 h1
        have hstep := processIfaces_none_iff s.name s.io_pins
          s.external_interface m r0 m1 hifc p
        have hrest := ih (idx + 1) m1 ls2 m2 h2 p
        rw [hrest, hstep]
        simp only [claimedPin, List.any_cons, Bool.or_eq_false_iff]
        unfold slaveClaims
        tauto

/-- C7: in the emitted defaults section, a pin in [0, 37] never claimed by
any interface gets the safe default (`io_out` driven low, `io_oen`
enabled); a claimed pin is in the pin plan and gets the enable polarity of
its role (0 = enable low, 1 = enable high, 2 = no static assign, the
slave's port drives the enable); and the defaults section is part of the
emitted line list. -/
theorem C7_default_pin_drive :
    ∀ (slaves : List ProcessedSlave) (ls : List String) (m : PinMap) (pin : Int),
      emitAllSlaves 0 slaves [] = .ok (ls, m) → 0 ≤ pin → pin ≤ 37 →
      ((claimedPin slaves pin = false →
          pmLookup m pin = none ∧
          pinDefaultLines m pin = [s!"    assign io_oen[{pin}] = 1'b1;",
                                   s!"    assign io_out[{pin}] = 1'b0;"])
       ∧ (claimedPin slaves pin = true → pmLookup m pin ≠ none)
       ∧ (pmLookup m pin = some 0 →
          pinDefaultLines m pin = [s!"    assign io_oen[{pin}] = 1'b0;"])
       ∧ (pmLookup m pin = some 1 →
          pinDefaultLines m pin = [s!"    assign io_oen[{pin}] = 1'b1;"])
       ∧ (pmLookup m pin = some 2 → pinDefaultLines m pin = [])
       ∧ (∀ lines, generateVerilogLines slaves = .ok lines →
            ∃ pre post, lines = pre ++ defaultDriveLines m ++ post)) := by
  intro slaves ls m pin h h0 h37
  have hiff := emitAllSlaves_none_iff slaves 0 [] ls m h pin
  refine ⟨?_, ?_, ?_, ?_, ?_, ?_⟩
  · intro hcl
    have hnone : pmLookup m pin = none := hiff.mpr ⟨rfl, hcl⟩
    refine ⟨hnone, ?_⟩
    unfold pinDefaultLines
    rw [hnone]
  · intro hcl hnone
    have := hiff.mp hnone
    rw [hcl] at this
    exact Bool.noConfusion this.2
  · intro hv
    unfold pinDefaultLines
    rw [hv]
  · intro hv
    unfold pinDefaultLines
    rw [hv]
  · intro hv
    unfold pinDefaultLines
    rw [hv]
  · intro lines hlines
    unfold generateVerilogLines at hlines
    simp only [h] at hlines
    injection hlines with hlines
    refine ⟨headerLines (slaves.foldl (fun a s => a + s.cell_count) 0) ++
      wiresFrom 0 slaves ++ csFrom 0 slaves ++ [""] ++ ls ++ muxHead ++
      (List.range slaves.length).flatMap muxCase ++ muxTail,
      ["", "endmodule"], ?_⟩
    rw [← hlines]

def psC7 : List ProcessedSlave :=
  [{ name := "u0", type := "uart", base_address := "32'h10000000",
     io_pins := [("rx", 5)], irq := none, cell_count := 0,
     external_interface :=
       [{ name := "rx", port := "rx_i", direction := "input", width := 1 }] }]

def emitC7 : Except GenError (List String × PinMap) := emitAllSlaves 0 psC7 []

def lsC7 : List String :=
  match emitC7 with
  | .ok (ls, _) => ls
  | .error _ => []

def mC7 : PinMap :=
  match emitC7 with
  | .ok (_, m) => m
  | .error _ => []

/-- Witness for C7: pin 7 is unclaimed in a concrete one-slave
configuration and gets the safe default lines. -/
theorem C7_witness :
    pmLookup mC7 7 = none ∧
    pinDefaultLines mC7 7 = ["    assign io_oen[7] = 1'b1;",
                             "    assign io_out[7] = 1'b0;"] :=
  (C7_default_pin_drive psC7 lsC7 mC7 7 rfl (by decide) (by decide)).1 rfl

end Cuprj
